import Mathlib

/-!
Verification of the `prompt` raw-mode terminal line editor.

The Go source (`prompt.go`) is shallowly embedded here:
* the edit buffer `line []rune` becomes `List Char`;
* the cursor (a Go `int` that the code keeps in `0 ≤ cursor ≤ len(line)`
  by guarding every decrement) becomes a `Nat`;
* bytes become `Nat` values below 256;
* the byte source behind `bufio.Reader` becomes a `List Nat`, end-of-input
  being the empty list;
* text written to the terminal becomes a returned `String`.
-/

namespace Prompt

/-- Go stdlib `unicode.IsSpace` on a code point given as a `Nat`.
In the Latin-1 range Go tests the explicit list
`'\t', '\n', '\v', '\f', '\r', ' ', 0x85, 0xA0`; above Latin-1 it tests the
Unicode White_Space ranges (U+1680, U+2000..U+200A, U+2028, U+2029,
U+202F, U+205F, U+3000). -/
def isSpaceNat (r : Nat) : Bool :=
  if r ≤ 0xFF then
    r = 9 || r = 10 || r = 11 || r = 12 || r = 13 || r = 32 || r = 0x85 || r = 0xA0
  else
    r = 0x1680 || (0x2000 ≤ r && r ≤ 0x200A) || r = 0x2028 || r = 0x2029 ||
      r = 0x202F || r = 0x205F || r = 0x3000

/-- Go `unicode.IsSpace` on a rune. -/
def isSpace (c : Char) : Bool :=
  isSpaceNat c.toNat

/-- Go stdlib `unicode.IsControl` on a code point given as a `Nat`.
Go answers via its Latin-1 `properties` table, whose `pC` flag is set for
0x00..0x1F, 0x7F..0x9F and — as a Go-specific special case — 0xAD
(soft hyphen); for every rune above Latin-1 `IsControl` returns `false`. -/
def isControlNat (r : Nat) : Bool :=
  if r ≤ 0xFF then
    r ≤ 0x1F || (0x7F ≤ r && r ≤ 0x9F) || r = 0xAD
  else
    false

/-- Go `unicode.IsControl` on a rune. -/
def isControl (c : Char) : Bool :=
  isControlNat c.toNat

/-- Embeds `isEscapeSequenceTerminator` (prompt.go:360); the argument is a
byte, so `rune(b)` is the code point `b` itself. -/
def isEscapeSequenceTerminator (b : Nat) : Bool :=
  b = 0x7E || b = 0x7F || isControlNat b ||
    ((0x41 ≤ b && b ≤ 0x5A) || (0x61 ≤ b && b ≤ 0x7A))

/-- Loop body of `readEscapeSequence` (prompt.go:342): the first argument is
the remaining loop iterations (16 at the top call), the second the unread
bytes of the source. Returns the accumulated sequence and the bytes left
unconsumed; an exhausted source (the `io.EOF` branch) just ends the loop. -/
def readEscapeSequenceAux : Nat → List Nat → List Nat × List Nat
  | 0, rest => ([], rest)
  | _ + 1, [] => ([], [])
  | n + 1, b :: rest =>
    if isEscapeSequenceTerminator b then ([b], rest)
    else
      let p := readEscapeSequenceAux n rest
      (b :: p.1, p.2)

/-- Embeds `readEscapeSequence` (prompt.go:342): up to 16 bytes are read,
stopping after the first terminator. -/
def readEscapeSequence (input : List Nat) : List Nat × List Nat :=
  readEscapeSequenceAux 16 input

/-- A backward scanning loop `for cursor > 0 && p(line[cursor-1]) { cursor-- }`,
shared by `moveCursorWordLeft` (prompt.go:395) and `backwardKillWord`
(prompt.go:415), which inline the same two loops. -/
def skipBack (p : Char → Bool) (line : List Char) : Nat → Nat
  | 0 => 0
  | c + 1 => if p (line.getD c 'A') then skipBack p line c else c + 1

/-- A forward scanning loop `for cursor < len(line) && p(line[cursor]) { cursor++ }`
with explicit fuel (first argument); `line.length` fuel always suffices. -/
def skipFwdAux (p : Char → Bool) (line : List Char) : Nat → Nat → Nat
  | 0, c => c
  | n + 1, c =>
    if c < line.length ∧ p (line.getD c 'A') = true then skipFwdAux p line n (c + 1)
    else c

/-- Forward scanning loop of `moveCursorWordRight` (prompt.go:405). -/
def skipFwd (p : Char → Bool) (line : List Char) (c : Nat) : Nat :=
  skipFwdAux p line line.length c

/-- Embeds `moveCursorWordLeft` (prompt.go:395): skip spaces backward, then
skip non-spaces backward. -/
def moveCursorWordLeft (line : List Char) (cursor : Nat) : Nat :=
  skipBack (fun r => !isSpace r) line (skipBack (fun r => isSpace r) line cursor)

/-- Embeds `moveCursorWordRight` (prompt.go:405): skip spaces forward, then
skip non-spaces forward. -/
def moveCursorWordRight (line : List Char) (cursor : Nat) : Nat :=
  skipFwd (fun r => !isSpace r) line (skipFwd (fun r => isSpace r) line cursor)

/-- Embeds `backwardKillWord` (prompt.go:415). The Go function recomputes
inline the same two backward loops as `moveCursorWordLeft` to obtain
`start`, then returns `append(line[:start], line[cursor:]...)` and `start`. -/
def backwardKillWord (line : List Char) (cursor : Nat) : List Char × Nat :=
  (line.take (moveCursorWordLeft line cursor) ++ line.drop cursor,
    moveCursorWordLeft line cursor)

/-- Embeds `backwardKillLine` (prompt.go:426):
`append(line[:0], line[cursor:]...)` with cursor 0. -/
def backwardKillLine (line : List Char) (cursor : Nat) : List Char × Nat :=
  (line.drop cursor, 0)

/-- Embeds `applyEscapeSequence` (prompt.go:367), the Go `switch seq` written
as the corresponding chain of string-equality tests. -/
def applyEscapeSequence (seq : String) (line : List Char) (cursor : Nat) :
    List Char × Nat :=
  if seq = "[D" ∨ seq = "OD" then
    (line, if cursor > 0 then cursor - 1 else cursor)
  else if seq = "[C" ∨ seq = "OC" then
    (line, if cursor < line.length then cursor + 1 else cursor)
  else if seq = "[H" ∨ seq = "[1~" ∨ seq = "[7~" ∨ seq = "OH" then
    (line, 0)
  else if seq = "[F" ∨ seq = "[4~" ∨ seq = "[8~" ∨ seq = "OF" then
    (line, line.length)
  else if seq = "[3~" then
    (if cursor < line.length then line.take cursor ++ line.drop (cursor + 1) else line,
      cursor)
  else if seq = "b" ∨ seq = "B" ∨ seq = "[1;5D" ∨ seq = "[5D" then
    (line, moveCursorWordLeft line cursor)
  else if seq = "f" ∨ seq = "F" ∨ seq = "[1;5C" ∨ seq = "[5C" then
    (line, moveCursorWordRight line cursor)
  else if seq = "\x7f" ∨ seq = "\x08" ∨ seq = "[3;3~" ∨ seq = "[8;3u" ∨ seq = "[127;3u" then
    backwardKillWord line cursor
  else
    (line, cursor)

/-- The sequence strings recognized by the `switch` of `applyEscapeSequence`
(prompt.go:367); any other sequence falls through to the default no-op. -/
def recognizedEscapeSequences : List String :=
  ["[D", "OD", "[C", "OC", "[H", "[1~", "[7~", "OH", "[F", "[4~", "[8~", "OF",
    "[3~", "b", "B", "[1;5D", "[5D", "f", "F", "[1;5C", "[5C",
    "\x7f", "\x08", "[3;3~", "[8;3u", "[127;3u"]

/-- The rune-insertion step of the dispatch loop (prompt.go:234):
`line = append(line[:cursor], append([]rune{r}, line[cursor:]...)...)` and
`cursor++`. -/
def insertRune (line : List Char) (cursor : Nat) (r : Char) : List Char × Nat :=
  (line.take cursor ++ r :: line.drop cursor, cursor + 1)

/-- Repeated insertion of a whole string into an initially empty buffer with
cursor 0, one code point at a time at the advancing cursor. -/
def insertString (s : List Char) : List Char × Nat :=
  s.foldl (fun st r => insertRune st.1 st.2 r) ([], 0)

/-- The session configuration consumed by `eofValue`: the fields `defaultTo`
and `optional` of the `prompt` struct (prompt.go:105). -/
structure PromptConfig where
  defaultTo : String
  optional : Bool

/-- The sentinel errors of the package (prompt.go:18, prompt.go:21). -/
inductive PromptError where
  | errRequired
  | errInterrupted
deriving DecidableEq

/-- Embeds `eofValue` (prompt.go:247). -/
def eofValue (q : PromptConfig) (input : String) : Except PromptError String :=
  if input ≠ "" then .ok input
  else if q.defaultTo ≠ "" then .ok q.defaultTo
  else if !q.optional then .error .errRequired
  else .ok ""

/-- The buffer/cursor mutation performed by one iteration of the
`readTerminalLine` dispatch switch (prompt.go:176) for byte `b`, where `r`
is the rune decoded on the default path. The branches that leave the loop
(CR/LF, Ctrl+C, Ctrl+D on an empty buffer, which is subsumed by its guard
`cursor < len(line)` being false) and the ESC branch (delegated to
`applyEscapeSequence`) do not mutate the state inside the switch, so they
return the pair unchanged. -/
def dispatchEdit (b : Nat) (r : Char) (line : List Char) (cursor : Nat) :
    List Char × Nat :=
  if b = 13 ∨ b = 10 then (line, cursor)
  else if b = 0x03 then (line, cursor)
  else if b = 0x01 then (line, 0)
  else if b = 0x02 then (line, if cursor > 0 then cursor - 1 else cursor)
  else if b = 0x05 then (line, line.length)
  else if b = 0x06 then (line, if cursor < line.length then cursor + 1 else cursor)
  else if b = 0x0b then (line.take cursor, cursor)
  else if b = 0x15 then backwardKillLine line cursor
  else if b = 0x17 then backwardKillWord line cursor
  else if b = 0x04 then
    (if cursor < line.length then line.take cursor ++ line.drop (cursor + 1) else line,
      cursor)
  else if b = 0x08 ∨ b = 0x7f then
    if cursor > 0 then (line.take (cursor - 1) ++ line.drop cursor, cursor - 1)
    else (line, cursor)
  else if b = 0x1b then (line, cursor)
  else if isControl r then (line, cursor)
  else insertRune line cursor r

/-- Embeds `visualPosition` (prompt.go:326). All quantities are nonnegative
(`inputCol` is a remainder, `index` a buffer index), so `Nat` division and
remainder coincide with Go's `int` division. -/
def visualPosition (inputCol index width : Nat) : Nat × Nat :=
  ((inputCol + index) / width, (inputCol + index) % width)

/-- Embeds `renderedPosition` (prompt.go:331). -/
def renderedPosition (inputCol index width : Nat) : Nat × Nat :=
  if 0 < index ∧ (inputCol + index) % width = 0 then
    ((inputCol + index) / width - 1, width - 1)
  else
    ((inputCol + index) / width, (inputCol + index) % width)

/-- The bytes written by `moveCursor` (prompt.go:313). -/
def moveCursorOutput (fromRow toRow toCol : Nat) : String :=
  (if fromRow > toRow then "\x1b[" ++ toString (fromRow - toRow) ++ "A"
   else if fromRow < toRow then "\x1b[" ++ toString (toRow - fromRow) ++ "B"
   else "") ++
    "\r" ++
    (if toCol > 0 then "\x1b[" ++ toString toCol ++ "C" else "")

/-- Embeds `moveVisualCursor` (prompt.go:298), returning the bytes written. -/
def moveVisualCursor (inputCol width fromIndex toIndex : Nat) : String :=
  if fromIndex = toIndex then ""
  else
    moveCursorOutput (visualPosition inputCol fromIndex width).1
      (visualPosition inputCol toIndex width).1
      (visualPosition inputCol toIndex width).2

/-! Helper lemmas about the scanning loops. -/

theorem skipBack_le (p : Char → Bool) (line : List Char) (c : Nat) :
    skipBack p line c ≤ c := by
  induction c with
  | zero => simp [skipBack]
  | succ c ih =>
    unfold skipBack
    split
    · exact Nat.le_trans ih (Nat.le_succ c)
    · exact Nat.le_refl _

theorem skipFwdAux_le (p : Char → Bool) (line : List Char) (n : Nat) :
    ∀ c, c ≤ line.length → skipFwdAux p line n c ≤ line.length := by
  induction n with
  | zero => intro c hc; simpa [skipFwdAux] using hc
  | succ n ih =>
    intro c hc
    unfold skipFwdAux
    split
    · next h => exact ih (c + 1) h.1
    · exact hc

theorem moveCursorWordLeft_le (line : List Char) (cursor : Nat) :
    moveCursorWordLeft line cursor ≤ cursor :=
  Nat.le_trans (skipBack_le _ _ _) (skipBack_le _ _ _)

theorem moveCursorWordRight_le (line : List Char) (cursor : Nat)
    (h : cursor ≤ line.length) : moveCursorWordRight line cursor ≤ line.length :=
  skipFwdAux_le _ _ _ _ (skipFwdAux_le _ _ _ _ h)

theorem backwardKillWord_bounds (line : List Char) (cursor : Nat)
    (h : cursor ≤ line.length) :
    (backwardKillWord line cursor).2 ≤ (backwardKillWord line cursor).1.length ∧
      (backwardKillWord line cursor).1.length ≤ line.length := by
  have hs : moveCursorWordLeft line cursor ≤ cursor := moveCursorWordLeft_le line cursor
  simp only [backwardKillWord, List.length_append, List.length_take, List.length_drop]
  omega

set_option maxHeartbeats 1600000 in
theorem applyEscapeSequence_bounds (seq : String) (line : List Char) (cursor : Nat)
    (h : cursor ≤ line.length) :
    (applyEscapeSequence seq line cursor).2 ≤ (applyEscapeSequence seq line cursor).1.length ∧
      (applyEscapeSequence seq line cursor).1.length ≤ line.length := by
  have hwl := moveCursorWordLeft_le line cursor
  have hwr := moveCursorWordRight_le line cursor h
  have hbk := backwardKillWord_bounds line cursor h
  unfold applyEscapeSequence
  repeat' split
  all_goals try simp only [List.length_append, List.length_take, List.length_drop]
  all_goals omega

set_option maxHeartbeats 1600000 in
theorem dispatchEdit_bounds (b : Nat) (r : Char) (line : List Char) (cursor : Nat)
    (h : cursor ≤ line.length) :
    (dispatchEdit b r line cursor).2 ≤ (dispatchEdit b r line cursor).1.length := by
  have hbk := backwardKillWord_bounds line cursor h
  by_cases h1 : b = 13 ∨ b = 10
  · unfold dispatchEdit; rw [if_pos h1]; exact h
  by_cases h2 : b = 0x03
  · unfold dispatchEdit; rw [if_neg h1, if_pos h2]; exact h
  by_cases h3 : b = 0x01
  · unfold dispatchEdit; rw [if_neg h1, if_neg h2, if_pos h3]; exact Nat.zero_le _
  by_cases h4 : b = 0x02
  · unfold dispatchEdit; rw [if_neg h1, if_neg h2, if_neg h3, if_pos h4]
    split <;> dsimp only <;> omega
  by_cases h5 : b = 0x05
  · unfold dispatchEdit; rw [if_neg h1, if_neg h2, if_neg h3, if_neg h4, if_pos h5]
  by_cases h6 : b = 0x06
  · unfold dispatchEdit
    rw [if_neg h1, if_neg h2, if_neg h3, if_neg h4, if_neg h5, if_pos h6]
    split <;> dsimp only <;> omega
  by_cases h7 : b = 0x0b
  · unfold dispatchEdit
    rw [if_neg h1, if_neg h2, if_neg h3, if_neg h4, if_neg h5, if_neg h6, if_pos h7]
    simp only [List.length_take]
    omega
  by_cases h8 : b = 0x15
  · unfold dispatchEdit
    rw [if_neg h1, if_neg h2, if_neg h3, if_neg h4, if_neg h5, if_neg h6, if_neg h7,
      if_pos h8]
    exact Nat.zero_le _
  by_cases h9 : b = 0x17
  · unfold dispatchEdit
    rw [if_neg h1, if_neg h2, if_neg h3, if_neg h4, if_neg h5, if_neg h6, if_neg h7,
      if_neg h8, if_pos h9]
    exact hbk.1
  by_cases h10 : b = 0x04
  · unfold dispatchEdit
    rw [if_neg h1, if_neg h2, if_neg h3, if_neg h4, if_neg h5, if_neg h6, if_neg h7,
      if_neg h8, if_neg h9, if_pos h10]
    split <;> simp only [List.length_append, List.length_take, List.length_drop] <;> omega
  by_cases h11 : b = 0x08 ∨ b = 0x7f
  · unfold dispatchEdit
    rw [if_neg h1, if_neg h2, if_neg h3, if_neg h4, if_neg h5, if_neg h6, if_neg h7,
      if_neg h8, if_neg h9, if_neg h10, if_pos h11]
    split <;> simp only [List.length_append, List.length_take, List.length_drop] <;> omega
  by_cases h12 : b = 0x1b
  · unfold dispatchEdit
    rw [if_neg h1, if_neg h2, if_neg h3, if_neg h4, if_neg h5, if_neg h6, if_neg h7,
      if_neg h8, if_neg h9, if_neg h10, if_neg h11, if_pos h12]
    exact h
  unfold dispatchEdit
  rw [if_neg h1, if_neg h2, if_neg h3, if_neg h4, if_neg h5, if_neg h6, if_neg h7,
    if_neg h8, if_neg h9, if_neg h10, if_neg h11, if_neg h12]
  split
  · exact h
  · simp only [insertRune, List.length_append, List.length_take, List.length_cons,
      List.length_drop]
    omega

/-! Characterization of the escape-sequence reader loop. -/

theorem readEscapeSequenceAux_append (n : Nat) :
    ∀ input : List Nat,
      (readEscapeSequenceAux n input).1 ++ (readEscapeSequenceAux n input).2 = input := by
  induction n with
  | zero => intro input; simp [readEscapeSequenceAux]
  | succ n ih =>
    intro input
    cases input with
    | nil => simp [readEscapeSequenceAux]
    | cons b rest =>
      unfold readEscapeSequenceAux
      split
      · simp
      · simpa using ih rest

theorem readEscapeSequenceAux_term (n : Nat) :
    ∀ (input : List Nat) (j : Nat),
      j = (input.takeWhile (fun b => !isEscapeSequenceTerminator b)).length →
      j < n → j < input.length →
      (readEscapeSequenceAux n input).1 = input.take (j + 1) ∧
        (readEscapeSequenceAux n input).2 = input.drop (j + 1) := by
  induction n with
  | zero => intro input j _ hn _; exact absurd hn (Nat.not_lt_zero j)
  | succ n ih =>
    intro input j hj hn hlen
    cases input with
    | nil => simp at hlen
    | cons b rest =>
      by_cases hb : isEscapeSequenceTerminator b = true
      · simp [List.takeWhile_cons, hb] at hj
        subst hj
        unfold readEscapeSequenceAux
        rw [if_pos hb]
        simp
      · simp [List.takeWhile_cons, Bool.not_eq_true _ ▸ hb, hb] at hj
        unfold readEscapeSequenceAux
        rw [if_neg hb]
        obtain ⟨j', rfl⟩ : ∃ j', j = j' + 1 := by
          cases j with
          | zero => omega
          | succ j' => exact ⟨j', rfl⟩
        have ih' := ih rest j' (by omega) (by omega) (by simp at hlen; omega)
        simp only [List.take_succ_cons, List.drop_succ_cons]
        exact ⟨by rw [ih'.1], by rw [ih'.2]⟩

theorem readEscapeSequenceAux_noterm (n : Nat) :
    ∀ (input : List Nat) (j : Nat),
      j = (input.takeWhile (fun b => !isEscapeSequenceTerminator b)).length →
      ¬(j < n ∧ j < input.length) →
      (readEscapeSequenceAux n input).1 = input.take n ∧
        (readEscapeSequenceAux n input).2 = input.drop n := by
  induction n with
  | zero => intro input j _ _; simp [readEscapeSequenceAux]
  | succ n ih =>
    intro input j hj hno
    cases input with
    | nil => simp [readEscapeSequenceAux]
    | cons b rest =>
      by_cases hb : isEscapeSequenceTerminator b = true
      · simp [List.takeWhile_cons, hb] at hj
        subst hj
        exact absurd ⟨Nat.succ_pos n, by simp⟩ hno
      · simp [List.takeWhile_cons, hb] at hj
        unfold readEscapeSequenceAux
        rw [if_neg hb]
        obtain ⟨j', rfl⟩ : ∃ j', j = j' + 1 := by
          cases j with
          | zero => omega
          | succ j' => exact ⟨j', rfl⟩
        have ih' := ih rest j' (by omega) (by simp at hno ⊢; intro hlt; omega)
        simp only [List.take_succ_cons, List.drop_succ_cons]
        exact ⟨by rw [ih'.1], by rw [ih'.2]⟩

/-! The insertion loop appends when the cursor advances with each inserted rune. -/

theorem insertString_loop (s : List Char) :
    ∀ acc : List Char,
      List.foldl (fun st r => insertRune st.1 st.2 r) (acc, acc.length) s =
        (acc ++ s, acc.length + s.length) := by
  induction s with
  | nil => intro acc; simp
  | cons r s ih =>
    intro acc
    have hstep : insertRune acc acc.length r = (acc ++ [r], acc.length + 1) := by
      simp [insertRune]
    have h2 := ih (acc ++ [r])
    simp only [List.length_append, List.length_singleton] at h2
    simp only [List.foldl_cons, hstep]
    rw [h2]
    simp
    omega

/-! Claim theorems. -/

/-- Claim C1: starting from any buffer and any cursor with
`0 ≤ cursor ≤ length buffer`, every edit operation — each
`applyEscapeSequence` case, `moveCursorWordLeft`, `moveCursorWordRight`,
`backwardKillWord`, `backwardKillLine`, and every dispatch-loop mutation
(Ctrl+A/B/E/F/K/U/W, Ctrl+D forward-delete, backspace, rune insertion) —
returns a buffer and cursor with `0 ≤ cursor' ≤ length buffer'`; in
particular word-left followed by word-right never leaves `[0, length]`. -/
theorem editOps_preserve_cursor_bounds (b : Nat) (r : Char) (seq : String)
    (line : List Char) (cursor : Nat) (h : 0 ≤ cursor ∧ cursor ≤ line.length) :
    (0 ≤ (dispatchEdit b r line cursor).2 ∧
      (dispatchEdit b r line cursor).2 ≤ (dispatchEdit b r line cursor).1.length) ∧
    (0 ≤ (applyEscapeSequence seq line cursor).2 ∧
      (applyEscapeSequence seq line cursor).2 ≤
        (applyEscapeSequence seq line cursor).1.length) ∧
    (0 ≤ moveCursorWordLeft line cursor ∧ moveCursorWordLeft line cursor ≤ line.length) ∧
    (0 ≤ moveCursorWordRight line cursor ∧
      moveCursorWordRight line cursor ≤ line.length) ∧
    (0 ≤ (backwardKillWord line cursor).2 ∧
      (backwardKillWord line cursor).2 ≤ (backwardKillWord line cursor).1.length) ∧
    (0 ≤ (backwardKillLine line cursor).2 ∧
      (backwardKillLine line cursor).2 ≤ (backwardKillLine line cursor).1.length) ∧
    (0 ≤ moveCursorWordRight line (moveCursorWordLeft line cursor) ∧
      moveCursorWordRight line (moveCursorWordLeft line cursor) ≤ line.length) := by
  obtain ⟨-, h⟩ := h
  have hwl : moveCursorWordLeft line cursor ≤ line.length :=
    Nat.le_trans (moveCursorWordLeft_le line cursor) h
  exact ⟨⟨Nat.zero_le _, dispatchEdit_bounds b r line cursor h⟩,
    ⟨Nat.zero_le _, (applyEscapeSequence_bounds seq line cursor h).1⟩,
    ⟨Nat.zero_le _, hwl⟩,
    ⟨Nat.zero_le _, moveCursorWordRight_le line cursor h⟩,
    ⟨Nat.zero_le _, (backwardKillWord_bounds line cursor h).1⟩,
    ⟨Nat.zero_le _, Nat.zero_le _⟩,
    ⟨Nat.zero_le _, moveCursorWordRight_le line (moveCursorWordLeft line cursor) hwl⟩⟩

/-- Witness for C1 at buffer `['a','b']`, cursor 1, backspace byte 8,
rune `'x'`, sequence `"[3~"`. -/
theorem editOps_preserve_cursor_bounds_witness :
    (0 ≤ (1 : Nat) ∧ 1 ≤ (['a', 'b'] : List Char).length) ∧
    ((0 ≤ (dispatchEdit 8 'x' ['a', 'b'] 1).2 ∧
      (dispatchEdit 8 'x' ['a', 'b'] 1).2 ≤ (dispatchEdit 8 'x' ['a', 'b'] 1).1.length) ∧
    (0 ≤ (applyEscapeSequence "[3~" ['a', 'b'] 1).2 ∧
      (applyEscapeSequence "[3~" ['a', 'b'] 1).2 ≤
        (applyEscapeSequence "[3~" ['a', 'b'] 1).1.length) ∧
    (0 ≤ moveCursorWordLeft ['a', 'b'] 1 ∧
      moveCursorWordLeft ['a', 'b'] 1 ≤ (['a', 'b'] : List Char).length) ∧
    (0 ≤ moveCursorWordRight ['a', 'b'] 1 ∧
      moveCursorWordRight ['a', 'b'] 1 ≤ (['a', 'b'] : List Char).length) ∧
    (0 ≤ (backwardKillWord ['a', 'b'] 1).2 ∧
      (backwardKillWord ['a', 'b'] 1).2 ≤ (backwardKillWord ['a', 'b'] 1).1.length) ∧
    (0 ≤ (backwardKillLine ['a', 'b'] 1).2 ∧
      (backwardKillLine ['a', 'b'] 1).2 ≤ (backwardKillLine ['a', 'b'] 1).1.length) ∧
    (0 ≤ moveCursorWordRight ['a', 'b'] (moveCursorWordLeft ['a', 'b'] 1) ∧
      moveCursorWordRight ['a', 'b'] (moveCursorWordLeft ['a', 'b'] 1) ≤
        (['a', 'b'] : List Char).length)) :=
  ⟨⟨Nat.zero_le _, by decide⟩,
    editOps_preserve_cursor_bounds 8 'x' "[3~" ['a', 'b'] 1 ⟨Nat.zero_le _, by decide⟩⟩

/-- Claim C2: `eofValue` resolves end-of-input in this exact precedence:
non-empty accumulated buffer wins (ignoring any default), then a configured
default, then empty-permitted (optional) resolves to the empty string, and
otherwise the outcome is the `ErrRequired` failure. -/
theorem eofValue_resolution_order (q : PromptConfig) (input : String) :
    (input ≠ "" → eofValue q input = .ok input) ∧
    (input = "" → q.defaultTo ≠ "" → eofValue q input = .ok q.defaultTo) ∧
    (input = "" → q.defaultTo = "" → q.optional = true → eofValue q input = .ok "") ∧
    (input = "" → q.defaultTo = "" → q.optional = false →
      eofValue q input = .error .errRequired) := by
  refine ⟨fun h1 => ?_, fun h1 h2 => ?_, fun h1 h2 h3 => ?_, fun h1 h2 h3 => ?_⟩
  · simp [eofValue, h1]
  · simp [eofValue, h1, h2]
  · simp [eofValue, h1, h2, h3]
  · simp [eofValue, h1, h2, h3]

/-- Witness for C2 at the four concrete configurations. -/
theorem eofValue_resolution_order_witness :
    eofValue ⟨"dflt", false⟩ "buf" = .ok "buf" ∧
    eofValue ⟨"dflt", false⟩ "" = .ok "dflt" ∧
    eofValue ⟨"", true⟩ "" = .ok "" ∧
    eofValue ⟨"", false⟩ "" = .error .errRequired :=
  ⟨(eofValue_resolution_order ⟨"dflt", false⟩ "buf").1 (by decide),
    (eofValue_resolution_order ⟨"dflt", false⟩ "").2.1 rfl (by decide),
    (eofValue_resolution_order ⟨"", true⟩ "").2.2.1 rfl rfl rfl,
    (eofValue_resolution_order ⟨"", false⟩ "").2.2.2 rfl rfl rfl⟩

/-- Claim C3: `readEscapeSequence` consumes exactly the bytes up to and
including the first terminator, or the first 16 bytes when no terminator is
among them, leaving the rest of the source unconsumed; a source exhausted
before a terminator yields the bytes accumulated so far (here `j` is the
number of leading non-terminator bytes, so if there is a terminator it sits
at index `j`). -/
theorem readEscapeSequence_contract (input : List Nat) :
    ((readEscapeSequence input).1 ++ (readEscapeSequence input).2 = input) ∧
    (∀ j, j = (input.takeWhile (fun b => !isEscapeSequenceTerminator b)).length →
      j < 16 → j < input.length →
      (readEscapeSequence input).1 = input.take (j + 1) ∧
        (readEscapeSequence input).2 = input.drop (j + 1)) ∧
    (∀ j, j = (input.takeWhile (fun b => !isEscapeSequenceTerminator b)).length →
      ¬(j < 16 ∧ j < input.length) →
      (readEscapeSequence input).1 = input.take 16 ∧
        (readEscapeSequence input).2 = input.drop 16) :=
  ⟨readEscapeSequenceAux_append 16 input,
    fun j hj h16 hlen => readEscapeSequenceAux_term 16 input j hj h16 hlen,
    fun j hj hno => readEscapeSequenceAux_noterm 16 input j hj hno⟩

/-- Witness for C3 on the spec's example, the bytes of `"[127;3u"` followed
by `'X'` (0x58): the sequence is the first 7 bytes and `'X'` stays unread. -/
theorem readEscapeSequence_contract_witness :
    (6 = (([91, 49, 50, 55, 59, 51, 117, 88] : List Nat).takeWhile
        (fun b => !isEscapeSequenceTerminator b)).length ∧
      6 < 16 ∧ 6 < ([91, 49, 50, 55, 59, 51, 117, 88] : List Nat).length) ∧
    ((readEscapeSequence [91, 49, 50, 55, 59, 51, 117, 88]).1 =
        ([91, 49, 50, 55, 59, 51, 117, 88] : List Nat).take 7 ∧
      (readEscapeSequence [91, 49, 50, 55, 59, 51, 117, 88]).2 =
        ([91, 49, 50, 55, 59, 51, 117, 88] : List Nat).drop 7) :=
  ⟨⟨by decide, by decide, by decide⟩,
    (readEscapeSequence_contract [91, 49, 50, 55, 59, 51, 117, 88]).2.1 6
      (by decide) (by decide) (by decide)⟩

/-- Claim C4 counterexample: byte 0x80 is a terminator (Go's
`unicode.IsControl` classifies the C1 range 0x80..0x9F as control), yet it
is none of `~`, DEL, a C0 control byte, or an ASCII letter, so the claimed
characterization is false at 0x80. -/
theorem terminator_claim_counterexample :
    isEscapeSequenceTerminator 0x80 = true ∧
    ¬((0x80 : Nat) = 0x7E ∨ (0x80 : Nat) = 0x7F ∨ (0x80 : Nat) ≤ 0x1F ∨
      ((0x41 : Nat) ≤ 0x80 ∧ (0x80 : Nat) ≤ 0x5A) ∨
      ((0x61 : Nat) ≤ 0x80 ∧ (0x80 : Nat) ≤ 0x7A)) := by
  decide

set_option maxRecDepth 8192 in
/-- Claim C4 as amended: for every byte `b`, `isEscapeSequenceTerminator b`
is true iff `b` is `~` (0x7E), DEL (0x7F), a C0 control byte (0x00..0x1F),
a C1 control byte (0x80..0x9F), the soft hyphen 0xAD (which Go's
`unicode.IsControl` also classifies as control), or an ASCII letter. -/
theorem terminator_characterization (b : Nat) (hb : b < 256) :
    isEscapeSequenceTerminator b = true ↔
      (b = 0x7E ∨ b = 0x7F ∨ b ≤ 0x1F ∨ (0x80 ≤ b ∧ b ≤ 0x9F) ∨ b = 0xAD ∨
        (0x41 ≤ b ∧ b ≤ 0x5A) ∨ (0x61 ≤ b ∧ b ≤ 0x7A)) := by
  revert hb
  revert b
  decide

/-- Witness for C4's amended characterization at the letter byte 0x41. -/
theorem terminator_characterization_witness :
    (0x41 : Nat) < 256 ∧
    (isEscapeSequenceTerminator 0x41 = true ↔
      ((0x41 : Nat) = 0x7E ∨ (0x41 : Nat) = 0x7F ∨ (0x41 : Nat) ≤ 0x1F ∨
        ((0x80 : Nat) ≤ 0x41 ∧ (0x41 : Nat) ≤ 0x9F) ∨ (0x41 : Nat) = 0xAD ∨
        ((0x41 : Nat) ≤ 0x41 ∧ (0x41 : Nat) ≤ 0x5A) ∨
        ((0x61 : Nat) ≤ 0x41 ∧ (0x41 : Nat) ≤ 0x7A))) :=
  ⟨by decide, terminator_characterization 0x41 (by decide)⟩

/-- Claim C5: repeated `backwardKillWord` from the end of
`"hello brave world"` removes one word per application:
`"hello brave world"` (17, end) gives `"hello brave "` with cursor 12, then
`"hello "` with cursor 6, then the empty buffer with cursor 0. -/
theorem backwardKillWord_hello_chain :
    backwardKillWord ("hello brave world".toList) 17 = ("hello brave ".toList, 12) ∧
    backwardKillWord ("hello brave ".toList) 12 = ("hello ".toList, 6) ∧
    backwardKillWord ("hello ".toList) 6 = (("" : String).toList, 0) := by
  decide

/-- Claim C6: for every buffer and in-bounds cursor, the Home sequences
`"[H"`, `"[1~"`, `"[7~"`, `"OH"` yield cursor 0 with the buffer unchanged,
and the End sequences `"[F"`, `"[4~"`, `"[8~"`, `"OF"` yield cursor equal
to the buffer length with the buffer unchanged. -/
theorem applyEscapeSequence_home_end (line : List Char) (cursor : Nat)
    (h : cursor ≤ line.length) :
    applyEscapeSequence "[H" line cursor = (line, 0) ∧
    applyEscapeSequence "[1~" line cursor = (line, 0) ∧
    applyEscapeSequence "[7~" line cursor = (line, 0) ∧
    applyEscapeSequence "OH" line cursor = (line, 0) ∧
    applyEscapeSequence "[F" line cursor = (line, line.length) ∧
    applyEscapeSequence "[4~" line cursor = (line, line.length) ∧
    applyEscapeSequence "[8~" line cursor = (line, line.length) ∧
    applyEscapeSequence "OF" line cursor = (line, line.length) :=
  ⟨rfl, rfl, rfl, rfl, rfl, rfl, rfl, rfl⟩

/-- Witness for C6 at buffer `['a','b']`, cursor 1. -/
theorem applyEscapeSequence_home_end_witness :
    (1 ≤ (['a', 'b'] : List Char).length) ∧
    (applyEscapeSequence "[H" ['a', 'b'] 1 = (['a', 'b'], 0) ∧
      applyEscapeSequence "[1~" ['a', 'b'] 1 = (['a', 'b'], 0) ∧
      applyEscapeSequence "[7~" ['a', 'b'] 1 = (['a', 'b'], 0) ∧
      applyEscapeSequence "OH" ['a', 'b'] 1 = (['a', 'b'], 0) ∧
      applyEscapeSequence "[F" ['a', 'b'] 1 = (['a', 'b'], 2) ∧
      applyEscapeSequence "[4~" ['a', 'b'] 1 = (['a', 'b'], 2) ∧
      applyEscapeSequence "[8~" ['a', 'b'] 1 = (['a', 'b'], 2) ∧
      applyEscapeSequence "OF" ['a', 'b'] 1 = (['a', 'b'], 2)) :=
  ⟨by decide, applyEscapeSequence_home_end ['a', 'b'] 1 (by decide)⟩

/-- Claim C7: when a positive printed index lands exactly at column 0
(`(inputCol + index) % width = 0`), `renderedPosition` reports the last
column of the previous row — `(row - 1, width - 1)` where `visualPosition`
reports `(row, 0)` — and that row is at least 1, so the subtraction is
genuine. -/
theorem renderedPosition_row_wrap (inputCol index width : Nat)
    (hw : 0 < width) (hi : 0 < index) (hc : (inputCol + index) % width = 0) :
    1 ≤ (visualPosition inputCol index width).1 ∧
    (visualPosition inputCol index width).2 = 0 ∧
    renderedPosition inputCol index width =
      ((visualPosition inputCol index width).1 - 1, width - 1) := by
  have habs : width ≤ inputCol + index :=
    Nat.le_of_dvd (by omega) (Nat.dvd_of_mod_eq_zero hc)
  refine ⟨?_, ?_, ?_⟩
  · simpa [visualPosition] using (Nat.one_le_div_iff hw).mpr habs
  · simpa [visualPosition] using hc
  · simp [renderedPosition, visualPosition, hi, hc]

/-- Witness for C7 at `inputCol = 2`, `index = 3`, `width = 5`. -/
theorem renderedPosition_row_wrap_witness :
    ((0 : Nat) < 5 ∧ (0 : Nat) < 3 ∧ (2 + 3) % 5 = 0) ∧
    (1 ≤ (visualPosition 2 3 5).1 ∧
      (visualPosition 2 3 5).2 = 0 ∧
      renderedPosition 2 3 5 = ((visualPosition 2 3 5).1 - 1, 5 - 1)) :=
  ⟨⟨by decide, by decide, by decide⟩,
    renderedPosition_row_wrap 2 3 5 (by decide) (by decide) (by decide)⟩

/-- Claim C8: inserting every code point of a string one at a time at the
advancing cursor, starting from the empty buffer and cursor 0, reproduces
the original string exactly (and leaves the cursor at its length). -/
theorem insert_roundtrip (s : String) :
    String.mk (insertString s.data).1 = s ∧ (insertString s.data).2 = s.length := by
  have h := insertString_loop s.data []
  simp only [List.length_nil, List.nil_append, Nat.zero_add] at h
  unfold insertString
  rw [h]
  exact ⟨by cases s; rfl, rfl⟩

/-- Claim C9: `moveVisualCursor` with equal source and target indices emits
zero bytes. -/
theorem moveVisualCursor_noop (inputCol width index : Nat) :
    moveVisualCursor inputCol width index index = "" := by
  simp [moveVisualCursor]

/-- Claim C10: `applyEscapeSequence` never lengthens the buffer for an
in-bounds cursor, and every unrecognized sequence leaves buffer and cursor
unchanged. -/
theorem applyEscapeSequence_never_lengthens (seq : String) (line : List Char)
    (cursor : Nat) (h : cursor ≤ line.length) :
    (applyEscapeSequence seq line cursor).1.length ≤ line.length ∧
    (seq ∉ recognizedEscapeSequences →
      applyEscapeSequence seq line cursor = (line, cursor)) := by
  refine ⟨(applyEscapeSequence_bounds seq line cursor h).2, fun hmem => ?_⟩
  simp only [recognizedEscapeSequences, List.mem_cons, List.not_mem_nil, or_false,
    not_or] at hmem
  obtain ⟨n1, n2, n3, n4, n5, n6, n7, n8, n9, n10, n11, n12, n13, n14, n15, n16,
    n17, n18, n19, n20, n21, n22, n23, n24, n25, n26⟩ := hmem
  unfold applyEscapeSequence
  rw [if_neg (by simp [n1, n2]), if_neg (by simp [n3, n4]),
    if_neg (by simp [n5, n6, n7, n8]), if_neg (by simp [n9, n10, n11, n12]),
    if_neg n13, if_neg (by simp [n14, n15, n16, n17]),
    if_neg (by simp [n18, n19, n20, n21]),
    if_neg (by simp [n22, n23, n24, n25, n26])]

/-- Witness for C10 at the unrecognized sequence `"zz"`, buffer `['a']`,
cursor 1. -/
theorem applyEscapeSequence_never_lengthens_witness :
    (1 ≤ (['a'] : List Char).length) ∧
    ((applyEscapeSequence "zz" ['a'] 1).1.length ≤ (['a'] : List Char).length ∧
      ("zz" ∉ recognizedEscapeSequences →
        applyEscapeSequence "zz" ['a'] 1 = (['a'], 1))) :=
  ⟨by decide, applyEscapeSequence_never_lengthens "zz" ['a'] 1 (by decide)⟩

end Prompt
